import Mathlib

/-!
Verification of the query-compilation engine and store facade of the
repository (packages/store/src/store.ts).

The embedding is shallow: JavaScript plain values become the inductive
type `JSValue`; a keyed mapping is an association list in insertion
order, which is also its iteration order; the mutually recursive
functions `build`, `handleValue` and `handleOperator` inside
`toDocumentExpressions` become mutually recursive Lean functions
returning `Except`, where a thrown JavaScript error becomes an
`Except.error` carrying a structured description of the error.
-/

/-- A JavaScript plain value, as the query compiler sees it: scalars,
arrays, and plain objects whose entries are kept in insertion order. -/
inductive JSValue where
  | undef : JSValue
  | null : JSValue
  | bool (b : Bool) : JSValue
  | num (n : Int) : JSValue
  | str (s : String) : JSValue
  | arr (elements : List JSValue) : JSValue
  | obj (entries : List (String × JSValue)) : JSValue

/-- A query is a keyed mapping; `Object.entries` order is list order. -/
abbrev Query := List (String × JSValue)

mutual

/-- A compiled expression: the triple of a dotted path, an operator token
and a value, as pushed by the source into the expressions array. -/
inductive Expression where
  | mk (path : String) (op : String) (value : ExprVal) : Expression

/-- The third slot of an expression: a plain value, a nested expression
list (for quantifier operators), or a list of expression lists (for the
logical combinators). -/
inductive ExprVal where
  | scalar (v : JSValue) : ExprVal
  | nested (exprs : List Expression) : ExprVal
  | nestedList (exprsLists : List (List Expression)) : ExprVal

end

/-- The errors the compiler can throw, as structured data: each
constructor corresponds to one `throw` site of the source (the
`typeError` constructor is the JavaScript TypeError raised when
`values.map` is called on a non-array value). -/
inductive QueryError where
  | unsupportedRootOperator (op : String) : QueryError
  | invalidQueryShape (subquery : JSValue) : QueryError
  | unknownOperator (op : String) : QueryError
  | unexpectedObjectValue (value : JSValue) : QueryError
  | typeError : QueryError

/-- `isPlainObject` from core-helpers: true exactly for plain keyed
mappings (arrays and scalars are not plain objects). -/
def isPlainObject : JSValue → Bool
  | .obj _ => true
  | _ => false

/-- Modelled from the spec: `looksLikeOperator` lives in the
repository file `packages/store/src/operator.ts`, which is absent from
the sources at hand. Per the spec it is a pure syntactic test on the
key for the reserved leading marker, the dollar sign. -/
def looksLikeOperator (name : String) : Bool :=
  name.data.head? == some '$'

/-- The closed set of canonical operator tokens listed by the spec. -/
def canonicalOperators : List String :=
  ["$equal", "$notEqual", "$greaterThan", "$greaterThanOrEqual",
   "$lessThan", "$lessThanOrEqual", "$in", "$notIn",
   "$and", "$or", "$nor", "$some", "$every", "$not"]

/-- Modelled from the spec: `normalizeOperatorForValue` lives in the
repository file `packages/store/src/operator.ts`, which is absent from
the sources at hand. Per the spec a token that is already a canonical
operator is returned unchanged, and an unrecognized token fails with
the UnknownOperator error naming the token. -/
def normalizeOperatorForValue (operator : String) (_value : JSValue) :
    Except QueryError String :=
  if canonicalOperators.contains operator then .ok operator
  else .error (.unknownOperator operator)

mutual

/-- The inner `build` of `toDocumentExpressions`: iterates the entries
of a query in order; an operator key at this level must be one of the
three logical combinators, otherwise the root-operator error is thrown;
an attribute key extends the dotted path and dispatches on the value. -/
def build : Query → String → Except QueryError (List Expression)
  | [], _ => .ok []
  | (name, value) :: rest, path =>
    if looksLikeOperator name then
      if name == "$and" || name == "$or" || name == "$nor" then
        match handleOperator name value path with
        | .error e => .error e
        | .ok exprs =>
          match build rest path with
          | .error e => .error e
          | .ok exprsRest => .ok (exprs ++ exprsRest)
      else .error (.unsupportedRootOperator name)
    else
      let subpath := if path != "" then path ++ "." ++ name else name
      match handleValue value subpath with
      | .error e => .error e
      | .ok exprs =>
        match build rest path with
        | .error e => .error e
        | .ok exprsRest => .ok (exprs ++ exprsRest)
termination_by q _ => sizeOf q
decreasing_by all_goals (simp_wf <;> omega)

/-- The inner `handleValue` of `toDocumentExpressions`: a non-object
value gets the default operator, the equality operator; an object whose
keys are all attributes is a subquery built at the extended path; one
whose keys are all operators dispatches each pair to `handleOperator`;
mixing both kinds throws the invalid-shape error citing the object. -/
def handleValue : JSValue → String → Except QueryError (List Expression)
  | .obj entries, subpath =>
    let objectContainsOperators := entries.any fun e => looksLikeOperator e.1
    let objectContainsAttributes := entries.any fun e => !looksLikeOperator e.1
    if objectContainsAttributes then
      if objectContainsOperators then .error (.invalidQueryShape (.obj entries))
      else build entries subpath
    else
      if objectContainsOperators then handleOperators entries subpath
      else .ok []
  | value, subpath => .ok [.mk subpath "$equal" (.scalar value)]
termination_by v _ => sizeOf v
decreasing_by all_goals simp_wf

/-- The loop of `handleValue` over an all-operator object: each
operator and value pair yields its expressions in entry order. -/
def handleOperators : Query → String → Except QueryError (List Expression)
  | [], _ => .ok []
  | (operator, value) :: rest, subpath =>
    match handleOperator operator value subpath with
    | .error e => .error e
    | .ok exprs =>
      match handleOperators rest subpath with
      | .error e => .error e
      | .ok exprsRest => .ok (exprs ++ exprsRest)
termination_by l _ => sizeOf l
decreasing_by all_goals (simp_wf <;> omega)

/-- The inner `handleOperator` of `toDocumentExpressions`: normalizes
the operator, compiles quantifier values as one subquery at the empty
path, compiles each element of a logical combinator value as an
independent subquery at the empty path, rejects object values for the
remaining operators, and otherwise emits the triple directly. -/
def handleOperator : String → JSValue → String → Except QueryError (List Expression)
  | operator, value, path =>
    match normalizeOperatorForValue operator value with
    | .error e => .error e
    | .ok normalizedOperator =>
      if normalizedOperator == "$some" || normalizedOperator == "$every" ||
          normalizedOperator == "$not" then
        match handleValue value "" with
        | .error e => .error e
        | .ok subexpressions =>
          .ok [.mk path normalizedOperator (.nested subexpressions)]
      else if normalizedOperator == "$and" || normalizedOperator == "$or" ||
          normalizedOperator == "$nor" then
        match value with
        | .arr values =>
          match handleValues values with
          | .error e => .error e
          | .ok operatorExpressions =>
            .ok [.mk path normalizedOperator (.nestedList operatorExpressions)]
        | _ => .error .typeError
      else
        if isPlainObject value then .error (.unexpectedObjectValue value)
        else .ok [.mk path normalizedOperator (.scalar value)]
termination_by _ v _ => sizeOf v + 1
decreasing_by all_goals (simp_wf <;> omega)

/-- The `values.map` of the logical-combinator branch: each array
element is compiled by `handleValue` at the empty path, in order. -/
def handleValues : List JSValue → Except QueryError (List (List Expression))
  | [] => .ok []
  | value :: rest =>
    match handleValue value "" with
    | .error e => .error e
    | .ok subexpressions =>
      match handleValues rest with
      | .error e => .error e
      | .ok subexpressionsRest => .ok (subexpressions :: subexpressionsRest)
termination_by vs => sizeOf vs
decreasing_by all_goals (simp_wf <;> omega)

end

/-- `toDocumentExpressions`: compiles a query into the ordered flat
list of expressions, starting from the empty path. The source first
passes the query through `toDocument`, the opaque deserialize hook of
the serialization layer; the spec declares that hook lossless on plain
values, so it is modelled as the identity here and the compiler works
on the query itself. -/
def toDocumentExpressions (query : Query) : Except QueryError (List Expression) :=
  build query ""

/-! ### Specification-side description of attribute-only queries

The following definitions follow the words of the spec, not the source:
a query containing only attribute keys at every nesting level, and the
list of its leaves, each leaf paired with the dot-joined chain of
attribute keys leading to it. They exist to be compared with what the
source compiler emits. -/

mutual

/-- Spec-side: every key of the query is an attribute name, and every
object value recursively satisfies the same, at every nesting level. -/
def attrOnlyQuery : Query → Bool
  | [] => true
  | (name, value) :: rest =>
    !looksLikeOperator name && attrOnlyValue value && attrOnlyQuery rest
termination_by q => sizeOf q
decreasing_by all_goals (simp_wf <;> omega)

/-- Spec-side: a value all of whose nested keyed mappings carry only
attribute keys. -/
def attrOnlyValue : JSValue → Bool
  | .obj entries => attrOnlyQuery entries
  | _ => true
termination_by v => sizeOf v
decreasing_by all_goals simp_wf

end

mutual

/-- Spec-side: the leaves of an attribute-only query below the given
path, in key order, each paired with the dot-joined chain of attribute
keys from the root. -/
def attrLeaves : Query → String → List (String × JSValue)
  | [], _ => []
  | (name, value) :: rest, path =>
    let subpath := if path != "" then path ++ "." ++ name else name
    valueLeaves value subpath ++ attrLeaves rest path
termination_by q _ => sizeOf q
decreasing_by all_goals (simp_wf <;> omega)

/-- Spec-side: the leaves of a value at a given path: a keyed mapping
opens a deeper level, any other value is itself a leaf. -/
def valueLeaves : JSValue → String → List (String × JSValue)
  | .obj entries, subpath => attrLeaves entries subpath
  | value, subpath => [(subpath, value)]
termination_by v _ => sizeOf v
decreasing_by all_goals simp_wf

end

/-- Spec-side: the single expression an attribute-only leaf should
compile to, an equality test at the dot-joined path of the leaf. -/
def leafExpression (leaf : String × JSValue) : Expression :=
  .mk leaf.1 "$equal" (.scalar leaf.2)

/-! ### The store facade

The facade methods `load`, `save`, `delete` and `count` of the `Store`
class become functions over a `Store` record whose fields are the six
abstract backend operations and the collaborator hooks the spec keeps
outside the core (serialization, attribute-selector picking, projection
and patch building). Each backend operation is asynchronous in the
source and suspends only at its call site, so its eventual outcome is
modelled as the value of a function field. The mutable `_trace` field
becomes an explicit trace argument threaded in and out. -/

/-- The domain and caller errors the facade can throw. Backend errors
pass through the facade uninterpreted and are not modelled. -/
inductive StoreError where
  | missingFromStore : StoreError
  | alreadyExistsInStore : StoreError
  | mutuallyExclusiveOptions : StoreError
  | storableNotRegistered (storableType : String) : StoreError
  | queryError (e : QueryError) : StoreError

/-- The stable machine-readable code attached to a thrown error via
`Object.assign`; only the two domain state errors carry one. -/
def errorCode : StoreError → Option String
  | .missingFromStore => some "COMPONENT_IS_MISSING_FROM_STORE"
  | .alreadyExistsInStore => some "COMPONENT_ALREADY_EXISTS_IN_STORE"
  | _ => none

/-- One entry of the trace log, as pushed by `_runOperation`: the
operation name, the deep-copied params and options, and the result on
success or the error on failure. -/
structure TraceEntry where
  operation : String
  params : JSValue
  options : Option JSValue
  result : Option JSValue
  error : Option StoreError

mutual

/-- `cloneDeep` from lodash: rebuilds the whole value structurally. -/
def cloneDeep : JSValue → JSValue
  | .arr elements => .arr (cloneDeepList elements)
  | .obj entries => .obj (cloneDeepEntries entries)
  | v => v
termination_by v => sizeOf v
decreasing_by all_goals simp_wf

/-- `cloneDeep` over the elements of an array. -/
def cloneDeepList : List JSValue → List JSValue
  | [] => []
  | v :: rest => cloneDeep v :: cloneDeepList rest
termination_by l => sizeOf l
decreasing_by all_goals (simp_wf <;> omega)

/-- `cloneDeep` over the entries of a keyed mapping. -/
def cloneDeepEntries : List (String × JSValue) → List (String × JSValue)
  | [] => []
  | (k, v) :: rest => (k, cloneDeep v) :: cloneDeepEntries rest
termination_by l => sizeOf l
decreasing_by all_goals (simp_wf <;> omega)

end

/-- The store: the registry of storable component names, the six
abstract per-backend document operations (restricted to those the
claims exercise), and the opaque collaborator hooks. The source derives
a collection name from the storable component name, so the collection
name argument of a backend operation is the storable type itself. -/
structure Store where
  storables : List String
  createDocument : String → JSValue → JSValue → Bool
  readDocument : String → JSValue → JSValue → Option JSValue
  updateDocument : String → JSValue → JSValue → Bool
  deleteDocument : String → JSValue → Bool
  countDocuments : String → List Expression → Int
  toDocument : JSValue → JSValue
  fromDocument : JSValue → JSValue
  normalizeAttributeSelector : JSValue → JSValue
  pickFromAttributeSelector : JSValue → JSValue → JSValue
  buildProjection : JSValue → JSValue
  deleteUndefinedProperties : JSValue → JSValue
  buildDocumentPatch : JSValue → JSValue

/-- `_runOperation`: runs the operation body, and when tracing is
active appends exactly one entry recording the call; a successful
result is returned unchanged and a thrown error is rethrown unchanged
after the entry is appended. -/
def runOperation (trace : Option (List TraceEntry)) (operation : String)
    (params : JSValue) (options : Option JSValue)
    (result : Except StoreError JSValue) :
    Except StoreError JSValue × Option (List TraceEntry) :=
  match trace with
  | none => (result, none)
  | some entries =>
    match result with
    | .ok value =>
      (.ok value,
       some (entries ++
         [⟨operation, cloneDeep params, options.map cloneDeep, some value, none⟩]))
    | .error e =>
      (.error e,
       some (entries ++
         [⟨operation, cloneDeep params, options.map cloneDeep, none, some e⟩]))

/-- Renders an optional option value as the entries it contributes to
the options bag recorded in the trace. -/
def optionEntry (name : String) (value : Option JSValue) : List (String × JSValue) :=
  match value with
  | some v => [(name, v)]
  | none => []

/-- The body of `load`: defaults the attribute selector to everything
and `throwIfMissing` to true, resolves the storable, reads through the
backend, shapes a found document back through the selector, returns
undefined when absent and tolerated, and otherwise throws the
missing-from-store error. -/
def Store.loadBody (store : Store) (storableType : String)
    (identifierDescriptor : JSValue) (attributeSelector : Option JSValue)
    (throwIfMissing : Option Bool) : Except StoreError JSValue :=
  let attrSel := store.normalizeAttributeSelector (attributeSelector.getD (.bool true))
  let throwIfMissingFlag := throwIfMissing.getD true
  if store.storables.contains storableType then
    let collectionName := storableType
    let documentIdentifierDescriptor := store.toDocument identifierDescriptor
    let documentAttributeSelector := store.toDocument attrSel
    let projection := store.buildProjection documentAttributeSelector
    match store.readDocument collectionName documentIdentifierDescriptor projection with
    | some document =>
      .ok (store.fromDocument
        (store.pickFromAttributeSelector document documentAttributeSelector))
    | none =>
      if !throwIfMissingFlag then .ok .undef
      else .error .missingFromStore
  else .error (.storableNotRegistered storableType)

/-- `load`: the body wrapped in `_runOperation` under the name load. -/
def Store.load (store : Store) (trace : Option (List TraceEntry))
    (storableType : String) (identifierDescriptor : JSValue)
    (attributeSelector : Option JSValue) (throwIfMissing : Option Bool) :
    Except StoreError JSValue × Option (List TraceEntry) :=
  runOperation trace "load"
    (.obj [("storableType", .str storableType),
           ("identifierDescriptor", identifierDescriptor)])
    (some (.obj (optionEntry "attributeSelector" attributeSelector ++
                 optionEntry "throwIfMissing" (throwIfMissing.map JSValue.bool))))
    (store.loadBody storableType identifierDescriptor attributeSelector throwIfMissing)

/-- The body of `save`, paired with the list of backend operations it
invoked, in order: the mutually exclusive options are rejected first,
before any backend call; a new document is created after its undefined
properties are stripped, an existing one is updated through a document
patch; a false success flag becomes the missing-from-store error when
`throwIfMissing` holds, else the already-exists error when
`throwIfExists` holds. -/
def Store.saveBody (store : Store) (storableType : String)
    (identifierDescriptor : JSValue) (serializedStorable : JSValue) (isNew : Bool)
    (throwIfMissing : Option Bool) (throwIfExists : Option Bool) :
    Except StoreError JSValue × List String :=
  let throwIfMissingFlag := throwIfMissing.getD (!isNew)
  let throwIfExistsFlag := throwIfExists.getD isNew
  if throwIfMissingFlag && throwIfExistsFlag then (.error .mutuallyExclusiveOptions, [])
  else if store.storables.contains storableType then
    let collectionName := storableType
    let documentIdentifierDescriptor := store.toDocument identifierDescriptor
    let document := store.toDocument serializedStorable
    let wasSaved :=
      if isNew then
        store.createDocument collectionName documentIdentifierDescriptor
          (store.deleteUndefinedProperties document)
      else
        store.updateDocument collectionName documentIdentifierDescriptor
          (store.buildDocumentPatch document)
    let calls := if isNew then ["createDocument"] else ["updateDocument"]
    if !wasSaved then
      if throwIfMissingFlag then (.error .missingFromStore, calls)
      else if throwIfExistsFlag then (.error .alreadyExistsInStore, calls)
      else (.ok (.bool wasSaved), calls)
    else (.ok (.bool wasSaved), calls)
  else (.error (.storableNotRegistered storableType), [])

/-- `save`: the body wrapped in `_runOperation` under the name save,
still paired with the list of backend operations invoked. -/
def Store.save (store : Store) (trace : Option (List TraceEntry))
    (storableType : String) (identifierDescriptor : JSValue)
    (serializedStorable : JSValue) (isNew : Bool) (throwIfMissing : Option Bool)
    (throwIfExists : Option Bool) :
    (Except StoreError JSValue × Option (List TraceEntry)) × List String :=
  let bodyResult := store.saveBody storableType identifierDescriptor
    serializedStorable isNew throwIfMissing throwIfExists
  (runOperation trace "save"
    (.obj [("storableType", .str storableType),
           ("identifierDescriptor", identifierDescriptor),
           ("serializedStorable", serializedStorable),
           ("isNew", .bool isNew)])
    (some (.obj (optionEntry "throwIfMissing" (throwIfMissing.map JSValue.bool) ++
                 optionEntry "throwIfExists" (throwIfExists.map JSValue.bool))))
    bodyResult.1,
   bodyResult.2)

/-- The body of `delete`: defaults `throwIfMissing` to true, deletes
through the backend, and turns a false success flag into the
missing-from-store error when `throwIfMissing` holds. -/
def Store.deleteBody (store : Store) (storableType : String)
    (identifierDescriptor : JSValue) (throwIfMissing : Option Bool) :
    Except StoreError JSValue :=
  let throwIfMissingFlag := throwIfMissing.getD true
  if store.storables.contains storableType then
    let documentIdentifierDescriptor := store.toDocument identifierDescriptor
    let wasDeleted := store.deleteDocument storableType documentIdentifierDescriptor
    if !wasDeleted && throwIfMissingFlag then .error .missingFromStore
    else .ok (.bool wasDeleted)
  else .error (.storableNotRegistered storableType)

/-- `delete`: the body wrapped in `_runOperation` under the name
delete. -/
def Store.delete (store : Store) (trace : Option (List TraceEntry))
    (storableType : String) (identifierDescriptor : JSValue)
    (throwIfMissing : Option Bool) :
    Except StoreError JSValue × Option (List TraceEntry) :=
  runOperation trace "delete"
    (.obj [("storableType", .str storableType),
           ("identifierDescriptor", identifierDescriptor)])
    (some (.obj (optionEntry "throwIfMissing" (throwIfMissing.map JSValue.bool))))
    (store.deleteBody storableType identifierDescriptor throwIfMissing)

/-- The body of `count`: resolves the storable, compiles the query and
counts through the backend. -/
def Store.countBody (store : Store) (storableType : String) (query : Query) :
    Except StoreError JSValue :=
  if store.storables.contains storableType then
    match toDocumentExpressions query with
    | .ok exprs => .ok (.num (store.countDocuments storableType exprs))
    | .error e => .error (.queryError e)
  else .error (.storableNotRegistered storableType)

/-- `count`: the body wrapped in `_runOperation`. The source passes the
string find, not count, as the operation name at this call site. -/
def Store.count (store : Store) (trace : Option (List TraceEntry))
    (storableType : String) (query : Query) :
    Except StoreError JSValue × Option (List TraceEntry) :=
  runOperation trace "find"
    (.obj [("storableType", .str storableType), ("query", .obj query)])
    none
    (store.countBody storableType query)

/-- A concrete store whose backend reports absence or conflict
everywhere: reads find nothing, creates report an existing document,
updates and deletes report absence, counts return five; the registry
holds one storable and every collaborator hook is the identity. Used to
evaluate the facade theorems at explicit inputs. -/
def absentBackendStore : Store where
  storables := ["Movie"]
  createDocument := fun _ _ _ => false
  readDocument := fun _ _ _ => none
  updateDocument := fun _ _ _ => false
  deleteDocument := fun _ _ => false
  countDocuments := fun _ _ => 5
  toDocument := fun v => v
  fromDocument := fun v => v
  normalizeAttributeSelector := fun v => v
  pickFromAttributeSelector := fun d _ => d
  buildProjection := fun v => v
  deleteUndefinedProperties := fun v => v
  buildDocumentPatch := fun v => v

/-! ### Helper lemmas -/

/-- An attribute-only query has no key that looks like an operator. -/
theorem attrOnlyQuery_no_operators (q : Query) (h : attrOnlyQuery q = true) :
    (q.any fun e => looksLikeOperator e.1) = false := by
  induction q with
  | nil => simp
  | cons head rest ih =>
    obtain ⟨name, value⟩ := head
    simp only [attrOnlyQuery, Bool.and_eq_true, Bool.not_eq_true'] at h
    simp [h.1.1, ih h.2]

mutual

/-- On an attribute-only query, `build` emits exactly the dot-joined
equality expression of each leaf, in key order. -/
theorem build_attrOnly : ∀ (q : Query) (path : String), attrOnlyQuery q = true →
    build q path = .ok ((attrLeaves q path).map leafExpression)
  | [], path, _ => by simp [build, attrLeaves]
  | (name, value) :: rest, path, h => by
    simp only [attrOnlyQuery, Bool.and_eq_true, Bool.not_eq_true'] at h
    obtain ⟨⟨hname, hvalue⟩, hrest⟩ := h
    rw [build]
    simp only [hname, Bool.false_eq_true, if_false]
    rw [handleValue_attrOnly value _ hvalue, build_attrOnly rest path hrest]
    simp [attrLeaves, leafExpression]
termination_by q _ _ => sizeOf q
decreasing_by all_goals (simp_wf <;> omega)

/-- On an attribute-only value, `handleValue` emits exactly the
equality expressions of the leaves below the given path. -/
theorem handleValue_attrOnly : ∀ (v : JSValue) (subpath : String), attrOnlyValue v = true →
    handleValue v subpath = .ok ((valueLeaves v subpath).map leafExpression)
  | .obj entries, subpath, h => by
    rw [attrOnlyValue] at h
    rw [handleValue, valueLeaves]
    have hops := attrOnlyQuery_no_operators entries h
    simp only [hops]
    by_cases hattr : (entries.any fun e => !looksLikeOperator e.1) = true
    · simp only [hattr, if_true, Bool.false_eq_true, if_false]
      exact build_attrOnly entries subpath h
    · have hnil : entries = [] := by
        cases entries with
        | nil => rfl
        | cons head rest =>
          exfalso
          obtain ⟨name, value⟩ := head
          simp only [attrOnlyQuery, Bool.and_eq_true, Bool.not_eq_true'] at h
          simp [h.1.1] at hattr
      subst hnil
      simp [attrLeaves]
  | .undef, subpath, _ => by simp [handleValue, valueLeaves, leafExpression]
  | .null, subpath, _ => by simp [handleValue, valueLeaves, leafExpression]
  | .bool b, subpath, _ => by simp [handleValue, valueLeaves, leafExpression]
  | .num n, subpath, _ => by simp [handleValue, valueLeaves, leafExpression]
  | .str s, subpath, _ => by simp [handleValue, valueLeaves, leafExpression]
  | .arr vs, subpath, _ => by simp [handleValue, valueLeaves, leafExpression]
termination_by v _ _ => sizeOf v
decreasing_by all_goals simp_wf

end

/-- `build` processes a concatenation of entry lists as the two lists
one after the other, concatenating the emitted expressions: emission
order follows key order and an error in the first part wins. -/
theorem build_append (q1 q2 : Query) (path : String) :
    build (q1 ++ q2) path =
      match build q1 path with
      | .error e => .error e
      | .ok exprs1 =>
        match build q2 path with
        | .error e => .error e
        | .ok exprs2 => .ok (exprs1 ++ exprs2) := by
  induction q1 with
  | nil =>
    rw [List.nil_append]
    rw [build]
    cases build q2 path <;> simp
  | cons head rest ih =>
    obtain ⟨name, value⟩ := head
    rw [List.cons_append]
    simp only [build]
    by_cases hop : looksLikeOperator name = true <;>
      simp only [hop, Bool.false_eq_true, if_true, if_false]
    · by_cases hlog : (name == "$and" || name == "$or" || name == "$nor") = true <;>
        simp only [hlog, Bool.false_eq_true, if_true, if_false]
      · cases handleOperator name value path with
        | error e => rfl
        | ok exprs =>
          rw [ih]
          cases build rest path with
          | error e => rfl
          | ok exprs1 =>
            cases build q2 path with
            | error e => rfl
            | ok exprs2 => simp [List.append_assoc]
    · cases handleValue value (if path != "" then path ++ "." ++ name else name) with
      | error e => rfl
      | ok exprs =>
        rw [ih]
        cases build rest path with
        | error e => rfl
        | ok exprs1 =>
          cases build q2 path with
          | error e => rfl
          | ok exprs2 => simp [List.append_assoc]

/-- `handleOperators` processes a concatenation of operator entry lists
in order, concatenating the emitted expressions. -/
theorem handleOperators_append (l1 l2 : Query) (subpath : String) :
    handleOperators (l1 ++ l2) subpath =
      match handleOperators l1 subpath with
      | .error e => .error e
      | .ok exprs1 =>
        match handleOperators l2 subpath with
        | .error e => .error e
        | .ok exprs2 => .ok (exprs1 ++ exprs2) := by
  induction l1 with
  | nil =>
    rw [List.nil_append]
    rw [handleOperators]
    cases handleOperators l2 subpath <;> simp
  | cons head rest ih =>
    obtain ⟨operator, value⟩ := head
    rw [List.cons_append]
    simp only [handleOperators]
    cases handleOperator operator value subpath with
    | error e => rfl
    | ok exprs =>
      rw [ih]
      cases handleOperators rest subpath with
      | error e => rfl
      | ok exprs1 =>
        cases handleOperators l2 subpath with
        | error e => rfl
        | ok exprs2 => simp [List.append_assoc]

/-- `_runOperation` never changes the outcome of the operation body. -/
theorem runOperation_fst (trace : Option (List TraceEntry)) (operation : String)
    (params : JSValue) (options : Option JSValue) (result : Except StoreError JSValue) :
    (runOperation trace operation params options result).1 = result := by
  cases trace with
  | none => rfl
  | some entries => cases result <;> rfl

/-! ### Claim theorems -/

/-- C1: for every well-formed query containing only attribute keys at
every nesting level, `toDocumentExpressions` recurses through every
level and emits exactly one expression per leaf value, in key order,
whose path is the dot-joined chain of attribute keys from the root and
whose operator is the equality operator. -/
theorem attrOnly_query_compiles_to_dotJoined_equal_leaves (q : Query)
    (h : attrOnlyQuery q = true) :
    toDocumentExpressions q = .ok ((attrLeaves q "").map leafExpression) :=
  build_attrOnly q "" h

/-- C1 witness: compiling the query a maps to 1 and b maps to the
mapping where c maps to 2 yields the two expressions of the claim. -/
theorem attrOnly_query_compiles_to_dotJoined_equal_leaves_witness :
    attrOnlyQuery [("a", .num 1), ("b", .obj [("c", .num 2)])] = true ∧
    toDocumentExpressions [("a", .num 1), ("b", .obj [("c", .num 2)])] =
      .ok [.mk "a" "$equal" (.scalar (.num 1)),
           .mk "b.c" "$equal" (.scalar (.num 2))] := by
  have h : attrOnlyQuery [("a", .num 1), ("b", .obj [("c", .num 2)])] = true := by
    simp [attrOnlyQuery, attrOnlyValue, looksLikeOperator]
  refine ⟨h, ?_⟩
  rw [attrOnly_query_compiles_to_dotJoined_equal_leaves _ h]
  simp [attrLeaves, valueLeaves, leafExpression]

/-- C2 counterexample: an array value supplied without an explicit
operator compiles to an expression whose operator is the equality
operator, not the membership operator the claim names. -/
theorem array_without_operator_compiles_to_equal :
    toDocumentExpressions [("a", .arr [.num 1, .num 2])] =
      .ok [.mk "a" "$equal" (.scalar (.arr [.num 1, .num 2]))] := by
  simp [toDocumentExpressions, build, handleValue, looksLikeOperator]

/-- C2 as amended: for every query value supplied without an explicit
operator, `handleValue` emits the equality operator whenever the value
is not a plain object; arrays included, no membership inference
happens at this call site. -/
theorem implicit_operator_is_equal_for_every_non_object (value : JSValue)
    (subpath : String) (h : isPlainObject value = false) :
    handleValue value subpath = .ok [.mk subpath "$equal" (.scalar value)] := by
  cases value <;> simp_all [handleValue, isPlainObject]

/-- C2 witness: the amended rule evaluated on an array value. -/
theorem implicit_operator_is_equal_for_every_non_object_witness :
    isPlainObject (.arr [.num 1, .num 2]) = false ∧
    handleValue (.arr [.num 1, .num 2]) "a" =
      .ok [.mk "a" "$equal" (.scalar (.arr [.num 1, .num 2]))] := by
  have h : isPlainObject (.arr [.num 1, .num 2]) = false := by simp [isPlainObject]
  exact ⟨h, implicit_operator_is_equal_for_every_non_object _ "a" h⟩

/-- C3 counterexample: at the root nesting level the compiler never
checks mixing, so a query whose root keys are the attribute a and the
operator and-combinator compiles successfully instead of failing with
the invalid-shape error. -/
theorem mixed_root_level_is_accepted :
    toDocumentExpressions [("a", .num 1), ("$and", .arr [.obj [("b", .num 2)]])] =
      .ok [.mk "a" "$equal" (.scalar (.num 1)),
           .mk "" "$and" (.nestedList [[.mk "b" "$equal" (.scalar (.num 2))]])] := by
  simp [toDocumentExpressions, build, handleValue, handleOperator, handleValues,
        looksLikeOperator, normalizeOperatorForValue, canonicalOperators]

/-- C3 as amended: at every nesting level below the root, that is for
every keyed mapping reached as a value, a key set containing both an
attribute name and an operator token fails with the invalid-shape
error citing the offending sub-object; the root level itself is
exempt, attribute keys may coexist there with the three logical
combinators. -/
theorem mixed_subquery_fails_with_invalid_shape (entries : Query) (subpath : String)
    (hattr : (entries.any fun e => !looksLikeOperator e.1) = true)
    (hops : (entries.any fun e => looksLikeOperator e.1) = true) :
    handleValue (.obj entries) subpath = .error (.invalidQueryShape (.obj entries)) := by
  rw [handleValue]
  simp [hattr, hops]

/-- C3 witness: the mixed sub-object with attribute b and operator
dollar-c fails with the invalid-shape error citing it. -/
theorem mixed_subquery_fails_with_invalid_shape_witness :
    ([("b", JSValue.num 1), ("$c", JSValue.num 2)].any fun e => !looksLikeOperator e.1) = true ∧
    ([("b", JSValue.num 1), ("$c", JSValue.num 2)].any fun e => looksLikeOperator e.1) = true ∧
    handleValue (.obj [("b", .num 1), ("$c", .num 2)]) "a" =
      .error (.invalidQueryShape (.obj [("b", .num 1), ("$c", .num 2)])) := by
  have h1 : ([("b", JSValue.num 1), ("$c", JSValue.num 2)].any
      fun e => !looksLikeOperator e.1) = true := by simp [looksLikeOperator]
  have h2 : ([("b", JSValue.num 1), ("$c", JSValue.num 2)].any
      fun e => looksLikeOperator e.1) = true := by simp [looksLikeOperator]
  exact ⟨h1, h2, mixed_subquery_fails_with_invalid_shape _ "a" h1 h2⟩

/-- C4: the root query whose single key is the and-combinator applied
to the array of the two sub-queries a maps to 1 and b maps to 2
compiles to exactly one expression at the empty path holding the two
sub-expression lists in input order; and in general the elements of a
logical combinator value are compiled one by one, each as an
independent sub-query rooted at the empty path, preserving order. -/
theorem root_and_compiles_elements_in_order :
    toDocumentExpressions [("$and", .arr [.obj [("a", .num 1)], .obj [("b", .num 2)]])] =
      .ok [.mk "" "$and" (.nestedList [[.mk "a" "$equal" (.scalar (.num 1))],
                                       [.mk "b" "$equal" (.scalar (.num 2))]])] ∧
    ∀ (v : JSValue) (vs : List JSValue),
      handleValues (v :: vs) =
        match handleValue v "" with
        | .error e => .error e
        | .ok exprs =>
          match handleValues vs with
          | .error e => .error e
          | .ok exprsRest => .ok (exprs :: exprsRest) := by
  constructor
  · simp [toDocumentExpressions, build, handleValue, handleOperator, handleValues,
          looksLikeOperator, normalizeOperatorForValue, canonicalOperators]
  · intro v vs
    rw [handleValues]

/-- C10: a value that is an empty plain object emits no expression at
any path, neither the attribute branch nor the operator branch fires,
and the query binding a to the empty object compiles to the empty
expression list rather than an error. -/
theorem empty_object_value_emits_nothing :
    (∀ subpath : String, handleValue (.obj []) subpath = .ok []) ∧
    toDocumentExpressions [("a", .obj [])] = .ok [] := by
  constructor
  · intro subpath
    simp [handleValue]
  · simp [toDocumentExpressions, build, handleValue, looksLikeOperator]

/-- C5 counterexample: a query whose root keys include the
non-logical operator dollar-gt can nevertheless fail with the
invalid-shape error rather than the root-operator error, because an
earlier attribute key fails first; the error of the claim is not
guaranteed. -/
theorem root_operator_error_can_be_preempted :
    toDocumentExpressions [("a", .obj [("b", .num 1), ("$c", .num 2)]),
                           ("$greaterThan", .num 3)] =
      .error (.invalidQueryShape (.obj [("b", .num 1), ("$c", .num 2)])) := by
  simp [toDocumentExpressions, build, handleValue, looksLikeOperator]

/-- C5 as amended: a query whose root keys include an operator token
other than the three logical combinators never compiles successfully;
when such a key comes first, before any failing key, the failure is
exactly the root-operator error naming the offending operator; and the
three logical combinators themselves are accepted at the root. -/
theorem non_logical_root_operator_always_fails (q : Query) (name : String)
    (value : JSValue) (hmem : (name, value) ∈ q)
    (hop : looksLikeOperator name = true) (hand : name ≠ "$and")
    (hor : name ≠ "$or") (hnor : name ≠ "$nor") :
    (∃ e, toDocumentExpressions q = .error e) ∧
    (∀ rest : Query, toDocumentExpressions ((name, value) :: rest) =
      .error (.unsupportedRootOperator name)) ∧
    toDocumentExpressions [("$and", .arr [])] = .ok [.mk "" "$and" (.nestedList [])] ∧
    toDocumentExpressions [("$or", .arr [])] = .ok [.mk "" "$or" (.nestedList [])] ∧
    toDocumentExpressions [("$nor", .arr [])] = .ok [.mk "" "$nor" (.nestedList [])] := by
  have hlog : (name == "$and" || name == "$or" || name == "$nor") = false := by
    simp [hand, hor, hnor]
  constructor
  · show ∃ e, build q "" = .error e
    induction q with
    | nil => simp at hmem
    | cons head rest ih =>
      rcases List.mem_cons.mp hmem with heq | hmemrest
      · subst heq
        rw [build]
        simp only [hop, if_true, hlog, Bool.false_eq_true, if_false]
        exact ⟨_, rfl⟩
      · obtain ⟨headName, headValue⟩ := head
        rw [build]
        obtain ⟨e, he⟩ := ih hmemrest
        by_cases h2 : looksLikeOperator headName = true <;>
          simp only [h2, Bool.false_eq_true, if_true, if_false]
        · by_cases h3 : (headName == "$and" || headName == "$or" ||
              headName == "$nor") = true <;>
            simp only [h3, Bool.false_eq_true, if_true, if_false]
          · cases handleOperator headName headValue "" with
            | error e2 => exact ⟨e2, rfl⟩
            | ok exprs => rw [he]; exact ⟨e, rfl⟩
          · exact ⟨_, rfl⟩
        · cases handleValue headValue (if "" != "" then "" ++ "." ++ headName
              else headName) with
          | error e2 => exact ⟨e2, rfl⟩
          | ok exprs => rw [he]; exact ⟨e, rfl⟩
  refine ⟨?_, ?_, ?_, ?_⟩
  · intro rest
    show build ((name, value) :: rest) "" = .error (.unsupportedRootOperator name)
    rw [build]
    simp only [hop, if_true, hlog, Bool.false_eq_true, if_false]
  · simp [toDocumentExpressions, build, handleOperator, handleValues,
          looksLikeOperator, normalizeOperatorForValue, canonicalOperators]
  · simp [toDocumentExpressions, build, handleOperator, handleValues,
          looksLikeOperator, normalizeOperatorForValue, canonicalOperators]
  · simp [toDocumentExpressions, build, handleOperator, handleValues,
          looksLikeOperator, normalizeOperatorForValue, canonicalOperators]

/-- C5 witness: the amended rule evaluated on the singleton query whose
only root key is the comparison operator dollar-greaterThan. -/
theorem non_logical_root_operator_always_fails_witness :
    looksLikeOperator "$greaterThan" = true ∧
    toDocumentExpressions [("$greaterThan", .num 1)] =
      .error (.unsupportedRootOperator "$greaterThan") := by
  have hop : looksLikeOperator "$greaterThan" = true := by decide
  have h := non_logical_root_operator_always_fails [("$greaterThan", .num 1)]
    "$greaterThan" (.num 1) (List.mem_singleton.mpr rfl) hop
    (by decide) (by decide) (by decide)
  exact ⟨hop, h.2.1 []⟩

/-- C6: against a backend that reports absence, `load` and `delete`
with default options fail with the missing-from-store error, whose
machine-readable code is the missing-component code; and `load` with
`throwIfMissing` set to false returns undefined instead of failing. -/
theorem load_delete_absent_backend (store : Store) (trace : Option (List TraceEntry))
    (storableType : String) (identifierDescriptor : JSValue)
    (hreg : store.storables.contains storableType = true)
    (hread : ∀ c i p, store.readDocument c i p = none)
    (hdel : ∀ c i, store.deleteDocument c i = false) :
    (store.load trace storableType identifierDescriptor none none).1 =
      .error .missingFromStore ∧
    (store.delete trace storableType identifierDescriptor none).1 =
      .error .missingFromStore ∧
    (store.load trace storableType identifierDescriptor none (some false)).1 =
      .ok .undef ∧
    errorCode .missingFromStore = some "COMPONENT_IS_MISSING_FROM_STORE" := by
  have hmem : storableType ∈ store.storables := by simpa using hreg
  refine ⟨?_, ?_, ?_, rfl⟩
  · rw [Store.load, runOperation_fst, Store.loadBody]
    simp [hmem, hread]
  · rw [Store.delete, runOperation_fst, Store.deleteBody]
    simp [hmem, hdel]
  · rw [Store.load, runOperation_fst, Store.loadBody]
    simp [hmem, hread]

/-- C6 witness: the rule evaluated on the concrete all-absent store. -/
theorem load_delete_absent_backend_witness :
    absentBackendStore.storables.contains "Movie" = true ∧
    (absentBackendStore.load none "Movie" (.str "m1") none none).1 =
      .error .missingFromStore ∧
    (absentBackendStore.delete none "Movie" (.str "m1") none).1 =
      .error .missingFromStore ∧
    (absentBackendStore.load none "Movie" (.str "m1") none (some false)).1 =
      .ok .undef := by
  have hreg : absentBackendStore.storables.contains "Movie" = true := by decide
  obtain ⟨h1, h2, h3, _⟩ := load_delete_absent_backend absentBackendStore none
    "Movie" (.str "m1") hreg (fun _ _ _ => rfl) (fun _ _ => rfl)
  exact ⟨hreg, h1, h2, h3⟩

/-- C7: `save` of a new component, with default options, against a
backend that reports the identifier already present fails with the
already-exists error, whose machine-readable code is the
already-exists code, after exactly the one create call and never by
silently overwriting; and supplying both `throwIfMissing` and
`throwIfExists` as true fails with the caller error before any backend
call, for every store, params and options. -/
theorem save_new_conflict_and_exclusive_options (store : Store)
    (trace : Option (List TraceEntry)) (storableType : String)
    (identifierDescriptor serializedStorable : JSValue)
    (hreg : store.storables.contains storableType = true)
    (hcreate : ∀ c i d, store.createDocument c i d = false) :
    ((store.save trace storableType identifierDescriptor serializedStorable
        true none none).1).1 = .error .alreadyExistsInStore ∧
    (store.save trace storableType identifierDescriptor serializedStorable
        true none none).2 = ["createDocument"] ∧
    errorCode .alreadyExistsInStore = some "COMPONENT_ALREADY_EXISTS_IN_STORE" ∧
    ∀ (store2 : Store) (trace2 : Option (List TraceEntry)) (storableType2 : String)
      (identifierDescriptor2 serializedStorable2 : JSValue) (isNew2 : Bool),
      ((store2.save trace2 storableType2 identifierDescriptor2 serializedStorable2
          isNew2 (some true) (some true)).1).1 = .error .mutuallyExclusiveOptions ∧
      (store2.save trace2 storableType2 identifierDescriptor2 serializedStorable2
          isNew2 (some true) (some true)).2 = [] := by
  have hmem : storableType ∈ store.storables := by simpa using hreg
  refine ⟨?_, ?_, rfl, ?_⟩
  · simp [Store.save, runOperation_fst, Store.saveBody, hmem, hcreate]
  · simp [Store.save, Store.saveBody, hmem, hcreate]
  · intro store2 trace2 storableType2 identifierDescriptor2 serializedStorable2 isNew2
    constructor
    · simp [Store.save, runOperation_fst, Store.saveBody]
    · simp [Store.save, Store.saveBody]

/-- C7 witness: the rule evaluated on the concrete all-absent store,
whose create operation always reports a conflicting document. -/
theorem save_new_conflict_and_exclusive_options_witness :
    absentBackendStore.storables.contains "Movie" = true ∧
    ((absentBackendStore.save none "Movie" (.str "m1") (.obj []) true none none).1).1 =
      .error .alreadyExistsInStore ∧
    (absentBackendStore.save none "Movie" (.str "m1") (.obj []) true none none).2 =
      ["createDocument"] ∧
    ((absentBackendStore.save none "Movie" (.str "m1") (.obj []) true (some true)
        (some true)).1).1 = .error .mutuallyExclusiveOptions := by
  have hreg : absentBackendStore.storables.contains "Movie" = true := by decide
  obtain ⟨h1, h2, _, h4⟩ := save_new_conflict_and_exclusive_options absentBackendStore
    none "Movie" (.str "m1") (.obj []) hreg (fun _ _ _ => rfl)
  exact ⟨hreg, h1, h2,
    (h4 absentBackendStore none "Movie" (.str "m1") (.obj []) true).1⟩

/-- C8 evidence: a traced `count` call appends exactly one entry, with
the params deep-copied and the result captured, but the operation name
it records is find, the string the source passes to `_runOperation` at
the `count` call site, not count. -/
theorem count_trace_entry_is_named_find :
    absentBackendStore.count (some []) "Movie" [] =
      (.ok (.num 5),
       some [⟨"find", .obj [("storableType", .str "Movie"), ("query", .obj [])],
              none, some (.num 5), none⟩]) := by
  have hreg : absentBackendStore.storables.contains "Movie" = true := by decide
  simp [Store.count, Store.countBody, runOperation, toDocumentExpressions, build,
        hreg, cloneDeep, cloneDeepEntries, absentBackendStore]

/-- C9: compilation is a pure function of its input, so compiling the
same query twice yields the same expression sequence; and the emission
order of expressions follows the key order of the input mapping, at the
root and recursively at every nesting level, because both the per-level
entry loop and the per-level operator loop turn list concatenation into
ordered concatenation of the emitted expressions. -/
theorem compile_is_pure_and_emission_follows_key_order :
    (∀ q : Query, toDocumentExpressions q = toDocumentExpressions q) ∧
    (∀ (q1 q2 : Query) (path : String),
      build (q1 ++ q2) path =
        match build q1 path with
        | .error e => .error e
        | .ok exprs1 =>
          match build q2 path with
          | .error e => .error e
          | .ok exprs2 => .ok (exprs1 ++ exprs2)) ∧
    (∀ (l1 l2 : Query) (subpath : String),
      handleOperators (l1 ++ l2) subpath =
        match handleOperators l1 subpath with
        | .error e => .error e
        | .ok exprs1 =>
          match handleOperators l2 subpath with
          | .error e => .error e
          | .ok exprs2 => .ok (exprs1 ++ exprs2)) :=
  ⟨fun _ => rfl, build_append, handleOperators_append⟩
